import Mathlib

/-!
# ASAP: likelihood-map and detection overlay plugin

A shallow embedding of
`src/workstation/visualization/VisualizationWorkstationExtensionPlugin.cpp`.

The plugin object becomes a record of its members, every slot becomes a
function from that record (and the values the slot reads from its
collaborators) to either a fault or the new record together with the ordered
list of calls made on the collaborators (signals emitted, viewer and scene
calls).  Undefined behaviour that the C++ text can run into (an integer
division by zero, a call through a null pointer) is a `Fault`.

Number types.  `F` stands for the `float` in which annotation coordinates and
the scene scale are held, with `*` its multiplication; `D` stands for the
`double` in which the opacity is passed.  Neither is given any arithmetic law.
Image dimensions are `unsigned long long`; the only arithmetic on them is the
division of line 80, which cannot wrap, so they are natural numbers.
The scale factor is initialised with the floating literal `1.` (line 21) and
passed as the `float` argument of `changeForegroundImage` (line 39).  It only
ever receives `1` or an `unsigned long long` quotient, and every `float` such a
value converts to is a natural number, so it is held as the natural number the
`float` denotes and the conversion from `unsigned long long` is `ullToFloat`.
-/

namespace ASAP

/-- Undefined behaviour reachable from the slots. -/
inductive Fault where
  /-- `a / 0` on `unsigned long long` (line 80). -/
  | divisionByZero
  /-- `local_img->getDimensions()` when `img.lock()` is empty (lines 77-78). -/
  | nullImage
  /-- `_viewer->...` with a null `_viewer` (lines 146, 156, 166). -/
  | nullViewer
  deriving DecidableEq, Repr

/-- Number of low-order bits that do not fit a 24-bit significand: the least
`e` (searched with the given fuel) with `n / 2 ^ e < 2 ^ 24`. -/
def dropBits : Nat → Nat → Nat
  | 0, _ => 0
  | fuel + 1, n => if n < 2 ^ 24 then 0 else dropBits fuel (n / 2) + 1

/-- Value of `(float) n` for an `unsigned long long` `n`: IEEE-754 binary32,
round to nearest, ties to even.  The result is again a natural number.  (C++
lets an implementation pick either neighbouring `float` when `n` is not one;
a value that is not a `float` is changed under both choices.) -/
def ullToFloat (n : Nat) : Nat :=
  let e := dropBits 64 n
  let q := n / 2 ^ e
  let r := n % 2 ^ e
  if 2 * r < 2 ^ e then q * 2 ^ e
  else if 2 ^ e < 2 * r then (q + 1) * 2 ^ e
  else if q % 2 = 0 then q * 2 ^ e
  else (q + 1) * 2 ^ e

/-- A `MultiResolutionImage` as far as the plugin looks at it:
`getDimensions()`, with `.1` for index `0` and `.2` for index `1`. -/
structure MultiResolutionImage where
  getDimensions : Nat × Nat
  deriving DecidableEq, Repr

/-- A `Point` of an annotation. -/
structure Point (F : Type) where
  getX : F
  getY : F
  deriving DecidableEq, Repr

/-- An `Annotation` as far as the plugin looks at it. -/
structure Annotation (F : Type) where
  getCoordinates : List (Point F)
  deriving DecidableEq, Repr

/-- A Qt point. -/
structure QPointF (F : Type) where
  x : F
  y : F
  deriving DecidableEq, Repr

/-- A Qt polygon: the points in the order they were appended. -/
abbrev QPolygonF (F : Type) := List (QPointF F)

/-- A polygon item of the scene, built from a polygon (line 153). -/
structure QGraphicsPolygonItem (F : Type) where
  polygon : QPolygonF F
  deriving DecidableEq, Repr

/-- Calls the plugin makes on its collaborators, in program order. -/
inductive Effect (F D : Type) where
  /-- `_dockWidget->setEnabled(b)`. -/
  | dockSetEnabled (b : Bool)
  /-- `emit changeForegroundImage(img, scale)`; `none` is the empty pointer. -/
  | changeForegroundImage (img : Option MultiResolutionImage) (scale : Nat)
  /-- `_viewer->setForegroundOpacity(o)`. -/
  | setForegroundOpacity (o : D)
  /-- `_viewer->scene()->addItem(cur)`. -/
  | sceneAddItem (cur : QGraphicsPolygonItem F)
  /-- `_viewer->scene()->removeItem(it)`. -/
  | sceneRemoveItem (it : QGraphicsPolygonItem F)
  /-- `delete it`. -/
  | deleteItem (it : QGraphicsPolygonItem F)
  deriving DecidableEq, Repr

/-- Members of `VisualizationWorkstationExtensionPlugin`.  A pointer to a
collaborator is kept as the boolean `pointer != NULL`. -/
structure VisualizationWorkstationExtensionPlugin (F D : Type) where
  dockWidget : Bool
  likelihoodCheckBox : Bool
  segmentationCheckBox : Bool
  viewer : Bool
  foreground : Option MultiResolutionImage
  /-- The natural number the `float` `_foregroundScale` denotes. -/
  foregroundScale : Nat
  /-- Modelled from the spec: the declared type of `_opacity` (the class
  header is not among the sources).  The spec stores the opacity as it is
  passed, so the member has the type of the argument of `onOpacityChanged`. -/
  opacity : D
  /-- Annotations held by `_lst`; `none` is the empty pointer. -/
  lst : Option (List ( Annotation F))
  /-- The handles in `_polygons`, each kept as the polygon it was built from. -/
  polygons : List (QGraphicsPolygonItem F)
  deriving DecidableEq, Repr

/-- What a slot returns: a fault, or the plugin afterwards and the calls made. -/
abbrev Outcome (F D : Type) :=
  Except Fault (VisualizationWorkstationExtensionPlugin F D × List (Effect F D))

/-- Arguments of `onNewImageLoaded` and the values it reads while running. -/
structure NewImage (F : Type) where
  /-- `img.lock()` (line 77). -/
  img : Option MultiResolutionImage
  fileName : String
  /-- `core::fileExists(likImgPth)` (line 68). -/
  likelihoodMapExists : Bool
  /-- `reader.open(likImgPth)` (line 75). -/
  opened : Option MultiResolutionImage
  /-- `_likelihoodCheckBox->isChecked()` (line 82). -/
  likelihoodChecked : Bool
  /-- `core::fileExists(segmXMLPth)` (line 94). -/
  detectionsExist : Bool
  /-- Annotations held by `_lst` once `_xmlRepo->load()` has run (line 96). -/
  loaded : List ( Annotation F)
  /-- `_segmentationCheckBox->isChecked()` (line 97). -/
  segmentationChecked : Bool
  /-- `_viewer->getSceneScale()` (line 146). -/
  sceneScale : F
  deriving DecidableEq, Repr

namespace VisualizationWorkstationExtensionPlugin

variable {F D : Type}

/-- Constructor (lines 16-26).  `_viewer` and `_segmentationCheckBox` are not
in the initialiser list, and the set-up calls of lines 37-58 assign only the
four collaborator pointers, so these are arguments here. -/
def start [One D] (dock likelihood segmentation viewer : Bool) :
    VisualizationWorkstationExtensionPlugin F D :=
  { dockWidget := dock
    likelihoodCheckBox := likelihood
    segmentationCheckBox := segmentation
    viewer := viewer
    foreground := none
    foregroundScale := 1
    opacity := 1
    lst := some []
    polygons := [] }

/-- Lines 80-81: the comparison of the two quotients and the value assigned to
`_foregroundScale` when it holds; `none` when it does not. -/
def registration (dimsBG dimsFG : Nat × Nat) : Except Fault (Option Nat) :=
  if dimsFG.1 = 0 ∨ dimsFG.2 = 0 then .error .divisionByZero
  else if dimsBG.1 / dimsFG.1 = dimsBG.2 / dimsFG.2 then
    .ok (some (ullToFloat (dimsBG.1 / dimsFG.1)))
  else .ok none

/-- Lines 148-152: the inner loop building one polygon. -/
def polygonOf [Mul F] (scl : F) (coords : List (Point F)) : QPolygonF F :=
  coords.foldl (fun poly pt => poly ++ [⟨pt.getX * scl, pt.getY * scl⟩]) []

/-- Lines 143-161. -/
def addSegmentationsToViewer [Mul F] (s : VisualizationWorkstationExtensionPlugin F D)
    (sceneScale : F) : Outcome F D :=
  match s.lst with
  | none => .ok (s, [])
  | some tmp =>
    if s.viewer = false then .error .nullViewer
    else
      let r := tmp.foldl
        (fun (acc : List (QGraphicsPolygonItem F) × List (Effect F D)) it =>
          let cur : QGraphicsPolygonItem F := ⟨polygonOf sceneScale it.getCoordinates⟩
          (acc.1 ++ [cur], acc.2 ++ [Effect.sceneAddItem cur]))
        (s.polygons, [])
      .ok ({ s with polygons := r.1 }, r.2)

/-- Lines 163-171. -/
def removeSegmentationsFromViewer (s : VisualizationWorkstationExtensionPlugin F D) :
    Outcome F D :=
  if s.polygons.isEmpty then .ok (s, [])
  else if s.viewer = false then .error .nullViewer
  else
    .ok ({ s with polygons := [] },
      s.polygons.foldl
        (fun fx it => fx ++ [Effect.sceneRemoveItem it, Effect.deleteItem it]) [])

/-- Lines 68-93: the likelihood-map part of `onNewImageLoaded`. -/
def loadLikelihoodMap (s : VisualizationWorkstationExtensionPlugin F D)
    (e : NewImage F) : Outcome F D :=
  if e.likelihoodMapExists = false then .ok (s, [])
  else
    -- lines 70-74
    let s1 := if s.foreground.isSome then
        { s with foregroundScale := 1, foreground := none } else s
    let fx1 : List (Effect F D) := if s.foreground.isSome then
        [Effect.changeForegroundImage none 1] else []
    -- line 75
    let s2 := { s1 with foreground := e.opened }
    match e.opened with
    | none => .ok (s2, fx1)
    | some fg =>
      match e.img with
      | none => .error .nullImage
      | some bg =>
        match registration bg.getDimensions fg.getDimensions with
        | .error f => .error f
        | .ok none => .ok (s2, fx1)
        | .ok (some scale) =>
          .ok ({ s2 with foregroundScale := scale },
            fx1
            ++ (if s.likelihoodCheckBox && e.likelihoodChecked then
                  [Effect.changeForegroundImage (some fg) scale]
                else [Effect.changeForegroundImage none scale])
            ++ (if s.viewer then [Effect.setForegroundOpacity s.opacity] else []))

/-- Lines 94-100: the detections part of `onNewImageLoaded`. -/
def loadDetections [Mul F] (s : VisualizationWorkstationExtensionPlugin F D)
    (e : NewImage F) : Outcome F D :=
  if e.detectionsExist = false then .ok (s, [])
  else
    let s1 := { s with lst := s.lst.map (fun _ => e.loaded) }
    if s.segmentationCheckBox && e.segmentationChecked then
      addSegmentationsToViewer s1 e.sceneScale
    else .ok (s1, [])

/-- Lines 60-102. -/
def onNewImageLoaded [Mul F] (s : VisualizationWorkstationExtensionPlugin F D)
    (e : NewImage F) : Outcome F D :=
  let fx0 : List (Effect F D) := if s.dockWidget then [Effect.dockSetEnabled true] else []
  if e.fileName = "" then .ok (s, fx0)
  else
    match loadLikelihoodMap s e with
    | .error f => .error f
    | .ok (s1, fx1) =>
      match loadDetections s1 e with
      | .error f => .error f
      | .ok (s2, fx2) => .ok (s2, fx0 ++ fx1 ++ fx2)

/-- Lines 104-116. -/
def onImageClosed (s : VisualizationWorkstationExtensionPlugin F D) : Outcome F D :=
  match (if !s.polygons.isEmpty then removeSegmentationsFromViewer s else .ok (s, [])) with
  | .error f => .error f
  | .ok (s1, fx1) =>
    .ok (if s1.foreground.isSome then
           { s1 with foregroundScale := 1, foreground := none } else s1,
         fx1
         ++ (if s1.foreground.isSome then [Effect.changeForegroundImage none 1] else [])
         ++ (if s1.dockWidget then [Effect.dockSetEnabled false] else []))

/-- Lines 118-125. -/
def onEnableLikelihoodToggled (s : VisualizationWorkstationExtensionPlugin F D)
    (toggled : Bool) : Outcome F D :=
  if toggled = false then .ok (s, [Effect.changeForegroundImage none s.foregroundScale])
  else .ok (s, [Effect.changeForegroundImage s.foreground s.foregroundScale])

/-- Lines 127-132. -/
def onOpacityChanged (s : VisualizationWorkstationExtensionPlugin F D)
    (opacity : D) : Outcome F D :=
  if s.viewer then .ok ({ s with opacity := opacity }, [Effect.setForegroundOpacity opacity])
  else .ok (s, [])

/-- Lines 134-141. -/
def onEnableSegmentationToggled [Mul F] (s : VisualizationWorkstationExtensionPlugin F D)
    (toggled : Bool) (sceneScale : F) : Outcome F D :=
  if toggled = false then removeSegmentationsFromViewer s
  else addSegmentationsToViewer s sceneScale

end VisualizationWorkstationExtensionPlugin

open VisualizationWorkstationExtensionPlugin

/-- The events delivered to the plugin, each with the values its slot reads. -/
inductive Event (F D : Type) where
  | imageLoaded (e : NewImage F)
  | imageClosed
  | toggleRaster (toggled : Bool)
  | togglePolygons (toggled : Bool) (sceneScale : F)
  | opacityChanged (opacity : D)
  deriving DecidableEq, Repr

variable {F D : Type}

/-- The slot an event is connected to. -/
def step [Mul F] (s : VisualizationWorkstationExtensionPlugin F D) :
    Event F D → Outcome F D
  | .imageLoaded e => onNewImageLoaded s e
  | .imageClosed => onImageClosed s
  | .toggleRaster b => onEnableLikelihoodToggled s b
  | .togglePolygons b scl => onEnableSegmentationToggled s b scl
  | .opacityChanged v => onOpacityChanged s v

/-- Deliver a list of events in order, collecting the calls made. -/
def run [Mul F] (s : VisualizationWorkstationExtensionPlugin F D) :
    List (Event F D) → Outcome F D
  | [] => .ok (s, [])
  | ev :: rest =>
    match step s ev with
    | .error f => .error f
    | .ok (s1, fx1) =>
      match run s1 rest with
      | .error f => .error f
      | .ok (s2, fx2) => .ok (s2, fx1 ++ fx2)

/-- States the plugin can be in after construction, set-up and any number of
events none of which ran into a fault. -/
inductive Reachable [Mul F] [One D] : VisualizationWorkstationExtensionPlugin F D → Prop where
  | start (dock likelihood segmentation viewer : Bool) :
      Reachable (start dock likelihood segmentation viewer)
  | step {s s1 : VisualizationWorkstationExtensionPlugin F D} {fx : List (Effect F D)}
      (ev : Event F D) : Reachable s → step s ev = .ok (s1, fx) → Reachable s1

/-- The detections part of a load does not call through a null `_viewer`:
either the viewer is set, or line 98 is not reached. -/
abbrev detectionsSafe (s : VisualizationWorkstationExtensionPlugin F D) (e : NewImage F) : Prop :=
  s.viewer = true ∨ e.detectionsExist = false ∨ s.segmentationCheckBox = false
    ∨ e.segmentationChecked = false

/-- An event other than an opacity change. -/
def Event.keepsOpacity : Event F D → Bool
  | .opacityChanged _ => false
  | _ => true

/-- Two facts every reachable plugin satisfies: polygons are attached only
when the viewer is set, and `_foregroundScale` is `1` while no derived image
is held. -/
def Consistent (s : VisualizationWorkstationExtensionPlugin F D) : Prop :=
  (s.polygons ≠ [] → s.viewer = true) ∧ (s.foreground = none → s.foregroundScale = 1)

/-- The members after `onImageClosed` has returned (lines 105-112 taken
together): no polygons, no derived image, scale 1 if an image was held. -/
def closed (s : VisualizationWorkstationExtensionPlugin F D) :
    VisualizationWorkstationExtensionPlugin F D :=
  { s with polygons := [],
           foregroundScale := if s.foreground.isSome then 1 else s.foregroundScale,
           foreground := none }

/-- The scene and release calls of the loop of lines 165-168 over the given
handles: `removeItem` then `delete` for each, in list order. -/
def releaseCalls : List (QGraphicsPolygonItem F) → List (Effect F D)
  | [] => []
  | it :: rest => Effect.sceneRemoveItem it :: Effect.deleteItem it :: releaseCalls rest

/-- States the plugin can be in when its events come from the user interface,
together with the state `checked` of the segmentation check box.  Line 54
connects `onEnableSegmentationToggled` to the `toggled(bool)` signal of that
box, which is emitted when the state of the box changes and carries the new
state; line 97 reads the state of the same box.  The other events are as in
`Reachable`. -/
inductive Delivered [Mul F] [One D] :
    VisualizationWorkstationExtensionPlugin F D → Bool → Prop where
  | start (dock likelihood segmentation viewer checked : Bool) :
      Delivered (start dock likelihood segmentation viewer) checked
  | imageLoaded {s s1 : VisualizationWorkstationExtensionPlugin F D}
      {fx : List (Effect F D)} {checked : Bool} (e : NewImage F) :
      Delivered s checked → e.segmentationChecked = checked →
      onNewImageLoaded s e = .ok (s1, fx) → Delivered s1 checked
  | imageClosed {s s1 : VisualizationWorkstationExtensionPlugin F D}
      {fx : List (Effect F D)} {checked : Bool} :
      Delivered s checked → onImageClosed s = .ok (s1, fx) → Delivered s1 checked
  | toggleRaster {s s1 : VisualizationWorkstationExtensionPlugin F D}
      {fx : List (Effect F D)} {checked : Bool} (toggled : Bool) :
      Delivered s checked → onEnableLikelihoodToggled s toggled = .ok (s1, fx) →
      Delivered s1 checked
  | togglePolygons {s s1 : VisualizationWorkstationExtensionPlugin F D}
      {fx : List (Effect F D)} (toggled : Bool) (sceneScale : F) :
      Delivered s (!toggled) →
      onEnableSegmentationToggled s toggled sceneScale = .ok (s1, fx) →
      Delivered s1 toggled
  | opacityChanged {s s1 : VisualizationWorkstationExtensionPlugin F D}
      {fx : List (Effect F D)} {checked : Bool} (opacity : D) :
      Delivered s checked → onOpacityChanged s opacity = .ok (s1, fx) →
      Delivered s1 checked

/-! ## Scenarios

Concrete plugins and loads, with `Int` coordinates and rational opacities. -/

/-- A plugin after set-up: dock widget, both check boxes and viewer present. -/
def ready : VisualizationWorkstationExtensionPlugin Int ℚ := start true true true true

/-- A load of `slide.tif` whose likelihood map exists and opens, with the
likelihood check box checked and no detections file. -/
def loadOf (dimsBG dimsFG : Nat × Nat) : NewImage Int :=
  { img := some ⟨dimsBG⟩
    fileName := "slide.tif"
    likelihoodMapExists := true
    opened := some ⟨dimsFG⟩
    likelihoodChecked := true
    detectionsExist := false
    loaded := []
    segmentationChecked := false
    sceneScale := 1 }

/-- The same load with the likelihood check box unchecked. -/
def loadUnchecked (dimsBG dimsFG : Nat × Nat) : NewImage Int :=
  { loadOf dimsBG dimsFG with likelihoodChecked := false }

/-- A triangle in image coordinates. -/
def triangle : Annotation Int := ⟨[⟨0, 0⟩, ⟨4, 0⟩, ⟨0, 3⟩]⟩

/-- A load of `slide.tif` that has a detections file holding one triangle and
no likelihood map, with the segmentation check box checked and scene scale 2. -/
def loadWithDetections : NewImage Int :=
  { img := some ⟨(4000, 4000)⟩
    fileName := "slide.tif"
    likelihoodMapExists := false
    opened := none
    likelihoodChecked := false
    detectionsExist := true
    loaded := [triangle]
    segmentationChecked := true
    sceneScale := 2 }

/-- The load of `loadWithDetections` seen with the segmentation check box
unchecked. -/
def loadBoxUnchecked : NewImage Int :=
  { loadWithDetections with segmentationChecked := false }

/-! ## Auxiliary facts -/

theorem dropBits_of_lt (fuel n : Nat) (h : n < 2 ^ 24) : dropBits fuel n = 0 := by
  cases fuel with
  | zero => rfl
  | succ f =>
    have h2 : n < 16777216 := by simpa using h
    simp [dropBits, h2]

theorem ullToFloat_of_lt (n : Nat) (h : n < 2 ^ 24) : ullToFloat n = n := by
  simp [ullToFloat, dropBits_of_lt 64 n h, Nat.mod_one]

theorem ullToFloat_of_le (n : Nat) (h : n ≤ 2 ^ 24) : ullToFloat n = n := by
  rcases Nat.lt_or_ge n (2 ^ 24) with hlt | hge
  · exact ullToFloat_of_lt n hlt
  · have hn : n = 2 ^ 24 := Nat.le_antisymm h hge
    subst hn
    decide

theorem foldl_append_singleton {α β : Type} (f : α → β) (l : List α) (acc : List β) :
    l.foldl (fun r a => r ++ [f a]) acc = acc ++ l.map f := by
  induction l generalizing acc with
  | nil => simp
  | cons a t ih => simp [ih]

theorem foldl_append_pair {α β γ : Type} (f : α → β) (g : α → γ) (l : List α)
    (acc : List β × List γ) :
    l.foldl (fun r a => (r.1 ++ [f a], r.2 ++ [g a])) acc
      = (acc.1 ++ l.map f, acc.2 ++ l.map g) := by
  induction l generalizing acc with
  | nil => simp
  | cons a t ih => simp [ih]

theorem polygonOf_eq_map [Mul F] (scl : F) (coords : List (Point F)) :
    polygonOf scl coords = coords.map (fun pt => ⟨pt.getX * scl, pt.getY * scl⟩) := by
  simp [polygonOf, foldl_append_singleton]

theorem addSegmentationsToViewer_eq [Mul F] (s : VisualizationWorkstationExtensionPlugin F D)
    (scl : F) (tmp : List ( Annotation F)) (hl : s.lst = some tmp) (hv : s.viewer = true) :
    addSegmentationsToViewer s scl
      = .ok ({ s with polygons := s.polygons
                ++ tmp.map (fun it => ⟨polygonOf scl it.getCoordinates⟩) },
             tmp.map (fun it => Effect.sceneAddItem ⟨polygonOf scl it.getCoordinates⟩)) := by
  simp only [addSegmentationsToViewer, hl, hv]
  rw [foldl_append_pair (fun it : Annotation F =>
        (⟨polygonOf scl it.getCoordinates⟩ : QGraphicsPolygonItem F))
      (fun it : Annotation F =>
        (Effect.sceneAddItem ⟨polygonOf scl it.getCoordinates⟩ : Effect F D))]
  simp

/-- What `addSegmentationsToViewer` does whenever it returns. -/
theorem addSegmentationsToViewer_ok [Mul F]
    {s s1 : VisualizationWorkstationExtensionPlugin F D} {scl : F} {fx : List (Effect F D)}
    (h : addSegmentationsToViewer s scl = .ok (s1, fx)) :
    ∃ added : List (QGraphicsPolygonItem F),
      s1 = { s with polygons := s.polygons ++ added }
      ∧ fx = added.map Effect.sceneAddItem
      ∧ (added ≠ [] → s.viewer = true)
      ∧ added = (s.lst.getD []).map (fun it => ⟨polygonOf scl it.getCoordinates⟩) := by
  obtain hl | ⟨tmp, hl⟩ : s.lst = none ∨ ∃ tmp, s.lst = some tmp := by
    cases s.lst <;> simp
  · simp only [addSegmentationsToViewer, hl] at h
    injection h with h
    injection h with h1 h2
    subst h1
    exact ⟨[], by simp, by simp [← h2], by simp, by simp [hl]⟩
  · by_cases hv : s.viewer = true
    · rw [addSegmentationsToViewer_eq s scl tmp hl hv] at h
      injection h with h
      injection h with h1 h2
      exact ⟨tmp.map (fun it => ⟨polygonOf scl it.getCoordinates⟩), h1.symm,
        by simp [← h2, List.map_map, Function.comp_def], fun _ => hv, by simp [hl]⟩
    · simp [addSegmentationsToViewer, hl, hv] at h

/-- What `removeSegmentationsFromViewer` does whenever it returns. -/
theorem removeSegmentationsFromViewer_ok
    {s s1 : VisualizationWorkstationExtensionPlugin F D} {fx : List (Effect F D)}
    (h : removeSegmentationsFromViewer s = .ok (s1, fx)) :
    s1 = { s with polygons := [] } ∧ (s.polygons = [] → fx = [])
      ∧ (s.polygons ≠ [] → s.viewer = true) := by
  unfold removeSegmentationsFromViewer at h
  by_cases hp : s.polygons = []
  · simp only [hp, List.isEmpty_nil, if_true] at h
    injection h with h
    injection h with h1 h2
    subst h1
    refine ⟨?_, fun _ => h2.symm, fun hne => absurd hp hne⟩
    rw [← hp]
  · have he : s.polygons.isEmpty = false := by
      cases hq : s.polygons with
      | nil => exact absurd hq hp
      | cons a t => rfl
    by_cases hv : s.viewer = true
    · have hv2 : ¬ s.viewer = false := by simp [hv]
      rw [he, if_neg (by simp), if_neg hv2] at h
      injection h with h
      injection h with h1 h2
      exact ⟨h1.symm, fun hq => absurd hq hp, fun _ => hv⟩
    · simp [he, hv] at h

/-- With the viewer set whenever polygons are attached,
`removeSegmentationsFromViewer` returns. -/
theorem removeSegmentationsFromViewer_total
    (s : VisualizationWorkstationExtensionPlugin F D)
    (hv : s.polygons ≠ [] → s.viewer = true) :
    ∃ fx, removeSegmentationsFromViewer s = .ok ({ s with polygons := [] }, fx) := by
  unfold removeSegmentationsFromViewer
  by_cases hp : s.polygons = []
  · refine ⟨[], ?_⟩
    simp only [hp, List.isEmpty_nil, if_true]
    rw [← hp]
  · have he : s.polygons.isEmpty = false := by
      cases hq : s.polygons with
      | nil => exact absurd hq hp
      | cons a t => rfl
    simp [he, hv hp]

/-- The likelihood-map part of a load whose derived image opened, in terms of
the outcome of the registration check. -/
theorem loadLikelihoodMap_opened (s : VisualizationWorkstationExtensionPlugin F D)
    (e : NewImage F) (fg bg : MultiResolutionImage)
    (hex : e.likelihoodMapExists = true) (hopen : e.opened = some fg)
    (himg : e.img = some bg) :
    loadLikelihoodMap s e =
      match registration bg.getDimensions fg.getDimensions with
      | .error f => .error f
      | .ok none =>
        .ok ({ s with foregroundScale := if s.foreground.isSome then 1 else s.foregroundScale,
                      foreground := some fg },
             if s.foreground.isSome then [Effect.changeForegroundImage none 1] else [])
      | .ok (some scale) =>
        .ok ({ s with foregroundScale := scale, foreground := some fg },
             (if s.foreground.isSome then [Effect.changeForegroundImage none 1] else [])
             ++ (if s.likelihoodCheckBox && e.likelihoodChecked then
                   [Effect.changeForegroundImage (some fg) scale]
                 else [Effect.changeForegroundImage none scale])
             ++ (if s.viewer then [Effect.setForegroundOpacity s.opacity] else [])) := by
  unfold loadLikelihoodMap
  simp only [hex, hopen, himg]
  cases registration bg.getDimensions fg.getDimensions with
  | error f => simp
  | ok r =>
    cases r with
    | none => cases s.foreground <;> simp
    | some scale => cases s.foreground <;> simp

/-- Members the likelihood-map part leaves alone, and the relation it keeps
between an empty `_foreground` and `_foregroundScale = 1`. -/
theorem loadLikelihoodMap_ok {s s1 : VisualizationWorkstationExtensionPlugin F D}
    {e : NewImage F} {fx : List (Effect F D)}
    (h : loadLikelihoodMap s e = .ok (s1, fx)) :
    ∃ fg1 scale1, s1 = { s with foregroundScale := scale1, foreground := fg1 }
      ∧ ((s.foreground = none → s.foregroundScale = 1) → fg1 = none → scale1 = 1) := by
  unfold loadLikelihoodMap at h
  by_cases hex : e.likelihoodMapExists = false
  · simp only [hex, if_true] at h
    injection h with h
    injection h with h1 h2
    subst h1
    exact ⟨s.foreground, s.foregroundScale, rfl, fun hi hn => hi hn⟩
  · simp only [hex, if_false] at h
    cases hop : e.opened with
    | none =>
      simp only [hop] at h
      injection h with h
      injection h with h1 h2
      refine ⟨none, if s.foreground.isSome then 1 else s.foregroundScale, ?_, ?_⟩
      · rw [← h1]; cases s.foreground <;> rfl
      · intro hi _
        cases hf : s.foreground with
        | none => simpa [hf] using hi hf
        | some x => simp
    | some fg =>
      simp only [hop] at h
      cases hi : e.img with
      | none => simp [hi] at h
      | some bg =>
        simp only [hi] at h
        cases hr : registration bg.getDimensions fg.getDimensions with
        | error f => simp [hr] at h
        | ok r =>
          cases r with
          | none =>
            simp only [hr] at h
            injection h with h
            injection h with h1 h2
            refine ⟨some fg, if s.foreground.isSome then 1 else s.foregroundScale, ?_, ?_⟩
            · rw [← h1]; cases s.foreground <;> rfl
            · intro _ hn; cases hn
          | some scale =>
            simp only [hr] at h
            injection h with h
            injection h with h1 h2
            refine ⟨some fg, scale, ?_, ?_⟩
            · rw [← h1]; cases s.foreground <;> rfl
            · intro _ hn; cases hn

/-- What the detections part does whenever it returns. -/
theorem loadDetections_ok [Mul F] {s s1 : VisualizationWorkstationExtensionPlugin F D}
    {e : NewImage F} {fx : List (Effect F D)}
    (h : loadDetections s e = .ok (s1, fx)) :
    ∃ l1 added, s1 = { s with lst := l1, polygons := s.polygons ++ added }
      ∧ fx = added.map Effect.sceneAddItem ∧ (added ≠ [] → s.viewer = true) := by
  unfold loadDetections at h
  by_cases hex : e.detectionsExist = false
  · simp only [hex, if_true] at h
    injection h with h
    injection h with h1 h2
    subst h1
    exact ⟨s.lst, [], by simp, by simp [← h2], by simp⟩
  · simp only [hex, if_false] at h
    by_cases hc : (s.segmentationCheckBox && e.segmentationChecked) = true
    · simp only [hc, if_true] at h
      obtain ⟨added, h1, h2, h3, _⟩ := addSegmentationsToViewer_ok h
      exact ⟨_, added, h1, h2, h3⟩
    · simp only [hc] at h
      injection h with h
      injection h with h1 h2
      exact ⟨s.lst.map (fun _ => e.loaded), [], by simp [← h1], by simp [← h2], by simp⟩

/-- With the viewer set, `addSegmentationsToViewer` returns. -/
theorem addSegmentationsToViewer_total [Mul F]
    (s : VisualizationWorkstationExtensionPlugin F D) (scl : F) (hv : s.viewer = true) :
    ∃ s1 fx, addSegmentationsToViewer s scl = .ok (s1, fx) := by
  obtain hl | ⟨tmp, hl⟩ : s.lst = none ∨ ∃ tmp, s.lst = some tmp := by
    cases s.lst <;> simp
  · exact ⟨s, [], by simp [addSegmentationsToViewer, hl]⟩
  · exact ⟨_, _, addSegmentationsToViewer_eq s scl tmp hl hv⟩

/-- The detections part returns when it does not call through a null viewer. -/
theorem loadDetections_total [Mul F] (s : VisualizationWorkstationExtensionPlugin F D)
    (e : NewImage F) (hsafe : detectionsSafe s e) :
    ∃ s1 fx, loadDetections s e = .ok (s1, fx) := by
  unfold loadDetections
  by_cases hex : e.detectionsExist = false
  · exact ⟨s, [], by simp [hex]⟩
  · by_cases hc : (s.segmentationCheckBox && e.segmentationChecked) = true
    · have hv : s.viewer = true := by
        rcases hsafe with h | h | h | h
        · exact h
        · exact absurd h hex
        · simp [h] at hc
        · simp [h] at hc
      simp only [hex, hc, if_true, if_false]
      exact addSegmentationsToViewer_total _ _ hv
    · simp only [hex, hc]
      exact ⟨_, _, rfl⟩

/-- A load with a file name is its likelihood-map part followed by its
detections part. -/
theorem onNewImageLoaded_of_parts [Mul F] (s s1 : VisualizationWorkstationExtensionPlugin F D)
    (e : NewImage F) (fx1 : List (Effect F D)) (hname : e.fileName ≠ "")
    (h1 : loadLikelihoodMap s e = .ok (s1, fx1)) (hsafe : detectionsSafe s1 e) :
    ∃ l1 added, onNewImageLoaded s e =
      .ok ({ s1 with lst := l1, polygons := s1.polygons ++ added },
           (if s.dockWidget then [Effect.dockSetEnabled true] else [])
             ++ fx1 ++ added.map Effect.sceneAddItem) := by
  obtain ⟨s2, fx2, h2⟩ := loadDetections_total s1 e hsafe
  obtain ⟨l1, added, e1, e2, _⟩ := loadDetections_ok h2
  refine ⟨l1, added, ?_⟩
  unfold onNewImageLoaded
  simp only [hname, if_false, h1, h2, e1, e2]

/-- What a load does whenever it returns. -/
theorem onNewImageLoaded_ok [Mul F] {s s2 : VisualizationWorkstationExtensionPlugin F D}
    {e : NewImage F} {fx : List (Effect F D)}
    (h : onNewImageLoaded s e = .ok (s2, fx)) :
    ∃ fg1 scale1 l1 added,
      s2 = { s with foregroundScale := scale1, foreground := fg1, lst := l1,
                    polygons := s.polygons ++ added }
      ∧ ((s.foreground = none → s.foregroundScale = 1) → fg1 = none → scale1 = 1)
      ∧ (added ≠ [] → s.viewer = true) := by
  unfold onNewImageLoaded at h
  by_cases hname : e.fileName = ""
  · simp only [hname, if_true] at h
    injection h with h
    injection h with h1 h2
    subst h1
    exact ⟨s.foreground, s.foregroundScale, s.lst, [], by simp, fun hi hn => hi hn, by simp⟩
  · simp only [hname, if_false] at h
    cases hl : loadLikelihoodMap s e with
    | error f => simp [hl] at h
    | ok r1 =>
      obtain ⟨s1, fx1⟩ := r1
      simp only [hl] at h
      cases hd : loadDetections s1 e with
      | error f => simp [hd] at h
      | ok r2 =>
        obtain ⟨s3, fx3⟩ := r2
        simp only [hd] at h
        injection h with h
        injection h with h1 h2
        subst h1
        obtain ⟨fg1, scale1, e1, hinv⟩ := loadLikelihoodMap_ok hl
        obtain ⟨l1, added, e2, _, hv⟩ := loadDetections_ok hd
        refine ⟨fg1, scale1, l1, added, ?_, hinv, ?_⟩
        · rw [e2, e1]
        · intro ha
          have := hv ha
          rw [e1] at this
          exact this

theorem registration_of_pos (dimsBG dimsFG : Nat × Nat) (hw : 0 < dimsFG.1)
    (hh : 0 < dimsFG.2) :
    registration dimsBG dimsFG =
      if dimsBG.1 / dimsFG.1 = dimsBG.2 / dimsFG.2 then
        .ok (some (ullToFloat (dimsBG.1 / dimsFG.1)))
      else .ok none := by
  unfold registration
  rw [if_neg]
  rintro (h | h)
  · exact absurd h (Nat.pos_iff_ne_zero.mp hw)
  · exact absurd h (Nat.pos_iff_ne_zero.mp hh)

/-- A load whose derived image opened and passed the check. -/
theorem onNewImageLoaded_accepted [Mul F] (s : VisualizationWorkstationExtensionPlugin F D)
    (e : NewImage F) (fg bg : MultiResolutionImage) (scale : Nat)
    (hname : e.fileName ≠ "") (hex : e.likelihoodMapExists = true)
    (hopen : e.opened = some fg) (himg : e.img = some bg)
    (hreg : registration bg.getDimensions fg.getDimensions = .ok (some scale))
    (hsafe : detectionsSafe s e) :
    ∃ l1 added, onNewImageLoaded s e =
      .ok ({ s with foregroundScale := scale, foreground := some fg, lst := l1,
                    polygons := s.polygons ++ added },
           (if s.dockWidget then [Effect.dockSetEnabled true] else [])
           ++ ((if s.foreground.isSome then [Effect.changeForegroundImage none 1] else [])
               ++ (if s.likelihoodCheckBox && e.likelihoodChecked then
                     [Effect.changeForegroundImage (some fg) scale]
                   else [Effect.changeForegroundImage none scale])
               ++ (if s.viewer then [Effect.setForegroundOpacity s.opacity] else []))
           ++ added.map Effect.sceneAddItem) := by
  have h1 := loadLikelihoodMap_opened s e fg bg hex hopen himg
  simp only [hreg] at h1
  exact onNewImageLoaded_of_parts s _ e _ hname h1 hsafe

/-- A load whose derived image opened and failed the check. -/
theorem onNewImageLoaded_rejected [Mul F] (s : VisualizationWorkstationExtensionPlugin F D)
    (e : NewImage F) (fg bg : MultiResolutionImage)
    (hname : e.fileName ≠ "") (hex : e.likelihoodMapExists = true)
    (hopen : e.opened = some fg) (himg : e.img = some bg)
    (hreg : registration bg.getDimensions fg.getDimensions = .ok none)
    (hsafe : detectionsSafe s e) :
    ∃ l1 added, onNewImageLoaded s e =
      .ok ({ s with foregroundScale := if s.foreground.isSome then 1 else s.foregroundScale,
                    foreground := some fg, lst := l1, polygons := s.polygons ++ added },
           (if s.dockWidget then [Effect.dockSetEnabled true] else [])
           ++ (if s.foreground.isSome then [Effect.changeForegroundImage none 1] else [])
           ++ added.map Effect.sceneAddItem) := by
  have h1 := loadLikelihoodMap_opened s e fg bg hex hopen himg
  simp only [hreg] at h1
  exact onNewImageLoaded_of_parts s _ e _ hname h1 hsafe

theorem isEmpty_eq_false_of_ne {α : Type} {l : List α} (h : l ≠ []) : l.isEmpty = false := by
  cases l with
  | nil => exact absurd rfl h
  | cons a t => rfl

/-- `onImageClosed` in terms of `removeSegmentationsFromViewer`. -/
theorem onImageClosed_of_remove (s s1 : VisualizationWorkstationExtensionPlugin F D)
    (fx1 : List (Effect F D)) (h : removeSegmentationsFromViewer s = .ok (s1, fx1))
    (h1 : s1 = { s with polygons := [] }) :
    ∃ fx, onImageClosed s = .ok (closed s, fx) := by
  unfold onImageClosed
  by_cases hp : s.polygons = []
  · simp only [hp, List.isEmpty_nil, Bool.not_true, Bool.false_eq_true, if_false]
    refine ⟨_, congrArg Except.ok (Prod.ext ?_ rfl)⟩
    cases hf : s.foreground with
    | none =>
      simp only [closed, hf, Option.isSome_none, Bool.false_eq_true, if_false]
      cases s
      simp_all
    | some x => simp only [closed, hf, Option.isSome_some, if_true]
  · simp only [isEmpty_eq_false_of_ne hp, Bool.not_false, if_true, h]
    refine ⟨_, congrArg Except.ok (Prod.ext ?_ rfl)⟩
    subst h1
    cases hf : s.foreground with
    | none => simp only [closed, hf, Option.isSome_none, Bool.false_eq_true, if_false]
    | some x => simp only [closed, hf, Option.isSome_some, if_true]

/-- With the viewer set whenever polygons are attached, `onImageClosed` returns. -/
theorem onImageClosed_total (s : VisualizationWorkstationExtensionPlugin F D)
    (hv : s.polygons ≠ [] → s.viewer = true) :
    ∃ fx, onImageClosed s = .ok (closed s, fx) := by
  obtain ⟨fx1, h⟩ := removeSegmentationsFromViewer_total s hv
  exact onImageClosed_of_remove s _ fx1 h rfl

/-- What `onImageClosed` does whenever it returns. -/
theorem onImageClosed_ok {s s1 : VisualizationWorkstationExtensionPlugin F D}
    {fx : List (Effect F D)} (h : onImageClosed s = .ok (s1, fx)) : s1 = closed s := by
  have hv : s.polygons ≠ [] → s.viewer = true := by
    intro hp
    unfold onImageClosed at h
    simp only [isEmpty_eq_false_of_ne hp, Bool.not_false, if_true] at h
    cases hr : removeSegmentationsFromViewer s with
    | error f => simp [hr] at h
    | ok r =>
      obtain ⟨s2, fx2⟩ := r
      exact (removeSegmentationsFromViewer_ok hr).2.2 hp
  obtain ⟨fx1, h1⟩ := onImageClosed_total s hv
  rw [h1] at h
  injection h with h
  injection h with h2 _
  exact h2.symm

/-- Every slot keeps a consistent plugin consistent. -/
theorem step_consistent [Mul F] {s s1 : VisualizationWorkstationExtensionPlugin F D}
    {fx : List (Effect F D)} (ev : Event F D) (hs : Consistent s)
    (h : step s ev = .ok (s1, fx)) : Consistent s1 := by
  cases ev with
  | imageLoaded e =>
    obtain ⟨fg1, scale1, l1, added, e1, hinv, hadd⟩ := onNewImageLoaded_ok h
    subst e1
    refine ⟨?_, fun hn => hinv hs.2 hn⟩
    intro hp
    by_cases ha : added = []
    · subst ha
      exact hs.1 (by simpa using hp)
    · exact hadd ha
  | imageClosed =>
    have e1 := onImageClosed_ok h
    subst e1
    refine ⟨fun hp => absurd rfl hp, fun _ => ?_⟩
    show (if s.foreground.isSome then 1 else s.foregroundScale) = 1
    cases hf : s.foreground with
    | none => simpa using hs.2 hf
    | some x => simp
  | toggleRaster b =>
    have e1 : s1 = s := by
      simp only [step, onEnableLikelihoodToggled] at h
      by_cases hb : b = false
      · simp only [hb, if_true] at h
        injection h with h
        injection h with h2 _
        exact h2.symm
      · simp only [hb, if_false] at h
        injection h with h
        injection h with h2 _
        exact h2.symm
    subst e1
    exact hs
  | togglePolygons b scl =>
    simp only [step, onEnableSegmentationToggled] at h
    by_cases hb : b = false
    · simp only [hb, if_true] at h
      obtain ⟨e1, _, _⟩ := removeSegmentationsFromViewer_ok h
      subst e1
      exact ⟨fun hp => absurd rfl hp, hs.2⟩
    · simp only [hb, if_false] at h
      obtain ⟨added, e1, _, hadd, _⟩ := addSegmentationsToViewer_ok h
      subst e1
      refine ⟨?_, hs.2⟩
      intro hp
      by_cases ha : added = []
      · subst ha
        exact hs.1 (by simpa using hp)
      · exact hadd ha
  | opacityChanged v =>
    simp only [step, onOpacityChanged] at h
    by_cases hv : s.viewer = true
    · simp only [hv, if_true] at h
      injection h with h
      injection h with h2 _
      subst h2
      exact ⟨fun _ => by simp, hs.2⟩
    · simp only [hv] at h
      injection h with h
      injection h with h2 _
      subst h2
      exact hs

/-- Every reachable plugin is consistent. -/
theorem reachable_consistent [Mul F] [One D] {s : VisualizationWorkstationExtensionPlugin F D}
    (h : Reachable s) : Consistent s := by
  induction h with
  | start dock likelihood segmentation viewer =>
    exact ⟨fun hp => absurd rfl hp, fun _ => rfl⟩
  | step ev _ hstep ih => exact step_consistent ev ih hstep

/-- No slot other than `onOpacityChanged` writes `_opacity` or `_viewer`. -/
theorem step_keeps_opacity [Mul F] {s s1 : VisualizationWorkstationExtensionPlugin F D}
    {fx : List (Effect F D)} (ev : Event F D) (hk : ev.keepsOpacity = true)
    (h : step s ev = .ok (s1, fx)) : s1.opacity = s.opacity ∧ s1.viewer = s.viewer := by
  cases ev with
  | imageLoaded e =>
    obtain ⟨fg1, scale1, l1, added, e1, _, _⟩ := onNewImageLoaded_ok h
    subst e1
    exact ⟨rfl, rfl⟩
  | imageClosed =>
    have e1 := onImageClosed_ok h
    subst e1
    exact ⟨rfl, rfl⟩
  | toggleRaster b =>
    simp only [step, onEnableLikelihoodToggled] at h
    by_cases hb : b = false
    · simp only [hb, if_true] at h
      injection h with h
      injection h with h2 _
      subst h2
      exact ⟨rfl, rfl⟩
    · simp only [hb, if_false] at h
      injection h with h
      injection h with h2 _
      subst h2
      exact ⟨rfl, rfl⟩
  | togglePolygons b scl =>
    simp only [step, onEnableSegmentationToggled] at h
    by_cases hb : b = false
    · simp only [hb, if_true] at h
      obtain ⟨e1, _, _⟩ := removeSegmentationsFromViewer_ok h
      subst e1
      exact ⟨rfl, rfl⟩
    · simp only [hb, if_false] at h
      obtain ⟨added, e1, _, _, _⟩ := addSegmentationsToViewer_ok h
      subst e1
      exact ⟨rfl, rfl⟩
  | opacityChanged v => cases hk

/-- A run without opacity changes keeps `_opacity` and `_viewer`. -/
theorem run_keeps_opacity [Mul F] (es : List (Event F D))
    (hes : ∀ ev ∈ es, ev.keepsOpacity = true)
    (s s1 : VisualizationWorkstationExtensionPlugin F D) (fx : List (Effect F D))
    (h : run s es = .ok (s1, fx)) : s1.opacity = s.opacity ∧ s1.viewer = s.viewer := by
  induction es generalizing s fx with
  | nil =>
    simp only [run] at h
    injection h with h
    injection h with h2 _
    subst h2
    exact ⟨rfl, rfl⟩
  | cons ev rest ih =>
    simp only [run] at h
    cases hst : step s ev with
    | error f => simp [hst] at h
    | ok r =>
      obtain ⟨s2, fx2⟩ := r
      simp only [hst] at h
      cases hr : run s2 rest with
      | error f => simp [hr] at h
      | ok r2 =>
        obtain ⟨s3, fx3⟩ := r2
        simp only [hr] at h
        injection h with h
        injection h with h2 _
        subst h2
        have h1 := step_keeps_opacity ev (hes ev (List.mem_cons_self _ _)) hst
        have h3 := ih (fun ev2 hm => hes ev2 (List.mem_cons_of_mem _ hm)) s2 fx3 hr
        exact ⟨h3.1.trans h1.1, h3.2.trans h1.2⟩

/-- The loop of lines 165-168 makes the calls of `releaseCalls`. -/
theorem foldl_release (l : List (QGraphicsPolygonItem F)) (acc : List (Effect F D)) :
    l.foldl (fun fx it => fx ++ [Effect.sceneRemoveItem it, Effect.deleteItem it]) acc
      = acc ++ releaseCalls l := by
  induction l generalizing acc with
  | nil => simp [releaseCalls]
  | cons a t ih => simp [ih, releaseCalls]

/-- With the viewer set whenever polygons are attached,
`removeSegmentationsFromViewer` empties `_polygons` after removing every
handle from the scene and deleting it. -/
theorem removeSegmentationsFromViewer_eq
    (s : VisualizationWorkstationExtensionPlugin F D)
    (hv : s.polygons ≠ [] → s.viewer = true) :
    removeSegmentationsFromViewer s
      = .ok ({ s with polygons := [] }, releaseCalls s.polygons) := by
  unfold removeSegmentationsFromViewer
  by_cases hp : s.polygons = []
  · simp only [hp, List.isEmpty_nil, if_true, releaseCalls]
    rw [← hp]
  · have he : s.polygons.isEmpty = false := by
      cases hq : s.polygons with
      | nil => exact absurd hq hp
      | cons a t => rfl
    have hv2 : ¬ s.viewer = false := by simp [hv hp]
    rw [he, if_neg (by simp), if_neg hv2, foldl_release]
    simp

/-- With the viewer set whenever polygons are attached, `onImageClosed`
returns `closed s` after the calls of lines 106, 110 and 114. -/
theorem onImageClosed_eq (s : VisualizationWorkstationExtensionPlugin F D)
    (hv : s.polygons ≠ [] → s.viewer = true) :
    onImageClosed s
      = .ok (closed s,
             releaseCalls s.polygons
             ++ (if s.foreground.isSome then [Effect.changeForegroundImage none 1] else [])
             ++ (if s.dockWidget then [Effect.dockSetEnabled false] else [])) := by
  unfold onImageClosed
  by_cases hp : s.polygons = []
  · simp only [hp, List.isEmpty_nil, Bool.not_true, Bool.false_eq_true, if_false,
      releaseCalls]
    refine congrArg Except.ok (Prod.ext ?_ rfl)
    cases hf : s.foreground with
    | none =>
      simp only [closed, hf, Option.isSome_none, Bool.false_eq_true, if_false]
      cases s
      simp_all
    | some x => simp only [closed, hf, Option.isSome_some, if_true]
  · simp only [isEmpty_eq_false_of_ne hp, Bool.not_false, if_true,
      removeSegmentationsFromViewer_eq s hv]
    refine congrArg Except.ok (Prod.ext ?_ rfl)
    cases hf : s.foreground with
    | none => simp only [closed, hf, Option.isSome_none, Bool.false_eq_true, if_false]
    | some x => simp only [closed, hf, Option.isSome_some, if_true]

/-- The detections part attaches nothing when the box is read unchecked, and
keeps `_lst` non-empty as a pointer. -/
theorem loadDetections_unchecked [Mul F] {s s1 : VisualizationWorkstationExtensionPlugin F D}
    {e : NewImage F} {fx : List (Effect F D)}
    (h : loadDetections s e = .ok (s1, fx)) :
    (e.segmentationChecked = false → s1.polygons = s.polygons)
      ∧ (s.lst.isSome = true → s1.lst.isSome = true) := by
  unfold loadDetections at h
  by_cases hex : e.detectionsExist = false
  · simp only [hex, if_true] at h
    injection h with h
    injection h with h1 h2
    subst h1
    exact ⟨fun _ => rfl, fun hl => hl⟩
  · simp only [hex, if_false] at h
    by_cases hc : (s.segmentationCheckBox && e.segmentationChecked) = true
    · simp only [hc, if_true] at h
      obtain ⟨added, h1, _, _, _⟩ := addSegmentationsToViewer_ok h
      subst h1
      refine ⟨fun hu => ?_, fun hl => ?_⟩
      · simp [hu] at hc
      · simpa using hl
    · simp only [hc] at h
      injection h with h
      injection h with h1 h2
      subst h1
      exact ⟨fun _ => rfl, fun hl => by simpa using hl⟩

/-- A load attaches nothing when the box is read unchecked, and keeps `_lst`
non-empty as a pointer. -/
theorem onNewImageLoaded_unchecked [Mul F]
    {s s2 : VisualizationWorkstationExtensionPlugin F D}
    {e : NewImage F} {fx : List (Effect F D)}
    (h : onNewImageLoaded s e = .ok (s2, fx)) :
    (e.segmentationChecked = false → s2.polygons = s.polygons)
      ∧ (s.lst.isSome = true → s2.lst.isSome = true) := by
  unfold onNewImageLoaded at h
  by_cases hname : e.fileName = ""
  · simp only [hname, if_true] at h
    injection h with h
    injection h with h1 h2
    subst h1
    exact ⟨fun _ => rfl, fun hl => hl⟩
  · simp only [hname, if_false] at h
    cases hl : loadLikelihoodMap s e with
    | error f => simp [hl] at h
    | ok r1 =>
      obtain ⟨s1, fx1⟩ := r1
      simp only [hl] at h
      cases hd : loadDetections s1 e with
      | error f => simp [hd] at h
      | ok r2 =>
        obtain ⟨s3, fx3⟩ := r2
        simp only [hd] at h
        injection h with h
        injection h with h1 h2
        subst h1
        obtain ⟨fg1, scale1, e1, _⟩ := loadLikelihoodMap_ok hl
        obtain ⟨hp, hs⟩ := loadDetections_unchecked hd
        subst e1
        exact ⟨hp, hs⟩

/-- `onOpacityChanged` leaves `_polygons` and `_lst` alone. -/
theorem onOpacityChanged_ok {s s1 : VisualizationWorkstationExtensionPlugin F D}
    {v : D} {fx : List (Effect F D)} (h : onOpacityChanged s v = .ok (s1, fx)) :
    s1.polygons = s.polygons ∧ s1.lst = s.lst := by
  unfold onOpacityChanged at h
  by_cases hv : s.viewer = true
  · rw [if_pos hv] at h
    injection h with h
    injection h with h2 _
    subst h2
    exact ⟨rfl, rfl⟩
  · rw [if_neg hv] at h
    injection h with h
    injection h with h2 _
    subst h2
    exact ⟨rfl, rfl⟩

/-- While the segmentation box is unchecked no polygon handle is attached, and
`_lst` always points to a list. -/
theorem delivered_unchecked [Mul F] [One D]
    {s : VisualizationWorkstationExtensionPlugin F D} {checked : Bool}
    (h : Delivered s checked) :
    (checked = false → s.polygons = []) ∧ s.lst.isSome = true := by
  induction h with
  | start dock likelihood segmentation viewer checked => exact ⟨fun _ => rfl, rfl⟩
  | imageLoaded e _ hbox hstep ih =>
    obtain ⟨hp, hs⟩ := onNewImageLoaded_unchecked hstep
    refine ⟨fun hc => ?_, hs ih.2⟩
    rw [hp (hbox.trans hc)]
    exact ih.1 hc
  | imageClosed _ hstep ih =>
    have e1 := onImageClosed_ok hstep
    subst e1
    exact ⟨fun _ => rfl, ih.2⟩
  | toggleRaster b _ hstep ih =>
    unfold onEnableLikelihoodToggled at hstep
    by_cases hb : b = false
    · simp only [hb, if_true] at hstep
      injection hstep with hstep
      injection hstep with h2 _
      subst h2
      exact ih
    · simp only [hb, if_false] at hstep
      injection hstep with hstep
      injection hstep with h2 _
      subst h2
      exact ih
  | togglePolygons b scl _ hstep ih =>
    unfold onEnableSegmentationToggled at hstep
    by_cases hb : b = false
    · simp only [hb, if_true] at hstep
      obtain ⟨e1, _, _⟩ := removeSegmentationsFromViewer_ok hstep
      subst e1
      exact ⟨fun _ => rfl, ih.2⟩
    · simp only [hb, if_false] at hstep
      obtain ⟨added, e1, _, _, _⟩ := addSegmentationsToViewer_ok hstep
      subst e1
      exact ⟨fun hc => absurd hc hb, ih.2⟩
  | opacityChanged v _ hstep ih =>
    obtain ⟨hp, hl⟩ := onOpacityChanged_ok hstep
    exact ⟨fun hc => hp.trans (ih.1 hc), by rw [hl]; exact ih.2⟩

/-- Every handle given to `releaseCalls` is removed from the scene and deleted. -/
theorem mem_releaseCalls {l : List (QGraphicsPolygonItem F)} {it : QGraphicsPolygonItem F}
    (h : it ∈ l) :
    (Effect.sceneRemoveItem it : Effect F D) ∈ releaseCalls l
      ∧ (Effect.deleteItem it : Effect F D) ∈ releaseCalls l := by
  induction l with
  | nil => cases h
  | cons a t ih =>
    rcases List.mem_cons.mp h with rfl | ht
    · simp [releaseCalls]
    · have := ih ht
      simp [releaseCalls, this.1, this.2]

/-- The calls of `releaseCalls` add nothing to the scene. -/
theorem releaseCalls_no_add (l : List (QGraphicsPolygonItem F)) (it : QGraphicsPolygonItem F) :
    (Effect.sceneAddItem it : Effect F D) ∉ releaseCalls l := by
  induction l with
  | nil => simp [releaseCalls]
  | cons a t ih => simp [releaseCalls, ih]

/-- The calls of `releaseCalls` emit no signal. -/
theorem releaseCalls_no_signal (l : List (QGraphicsPolygonItem F))
    (img : Option MultiResolutionImage) (scale : Nat) :
    (Effect.changeForegroundImage img scale : Effect F D) ∉ releaseCalls l := by
  induction l with
  | nil => simp [releaseCalls]
  | cons a t ih => simp [releaseCalls, ih]

/-! ## Registration (lines 76-92) -/

/-- C1, as amended: for positive `k`, `w`, `h` with `k * w` and `k * h` below
`2 ^ 64`, a load that sees a base image of dimensions `(k * w, k * h)` and a
derived image of dimensions `(w, h)` returns, keeps the derived image, and
stores and emits (with the derived image when the likelihood box is present
and checked, with the empty pointer otherwise) the `float` value of `k`, which
is `k` itself whenever `k ≤ 2 ^ 24`. -/
theorem C1_exact_multiple_scale [Mul F] (s : VisualizationWorkstationExtensionPlugin F D)
    (e : NewImage F) (fg bg : MultiResolutionImage) (k w h : Nat)
    (_hk : 0 < k) (hw : 0 < w) (hh : 0 < h)
    (_hkw : k * w < 2 ^ 64) (_hkh : k * h < 2 ^ 64)
    (hname : e.fileName ≠ "") (hex : e.likelihoodMapExists = true)
    (hopen : e.opened = some fg) (himg : e.img = some bg)
    (hbg : bg.getDimensions = (k * w, k * h)) (hfg : fg.getDimensions = (w, h))
    (hsafe : detectionsSafe s e) :
    ∃ s1 fx, onNewImageLoaded s e = .ok (s1, fx)
      ∧ s1.foreground = some fg
      ∧ s1.foregroundScale = ullToFloat k
      ∧ Effect.changeForegroundImage
          (if s.likelihoodCheckBox && e.likelihoodChecked then some fg else none)
          (ullToFloat k) ∈ fx
      ∧ (k ≤ 2 ^ 24 → ullToFloat k = k) := by
  have hreg : registration bg.getDimensions fg.getDimensions
      = .ok (some (ullToFloat k)) := by
    rw [registration_of_pos _ _ (by rw [hfg]; exact hw) (by rw [hfg]; exact hh), hbg, hfg]
    simp only [Nat.mul_div_cancel _ hw, Nat.mul_div_cancel _ hh, if_true]
  obtain ⟨l1, added, h1⟩ :=
    onNewImageLoaded_accepted s e fg bg (ullToFloat k) hname hex hopen himg hreg hsafe
  refine ⟨_, _, h1, rfl, rfl, ?_, ullToFloat_of_le k⟩
  by_cases hc : (s.likelihoodCheckBox && e.likelihoodChecked) = true
  · simp [hc]
  · simp [hc]

/-- C1, witness: base 4000 x 4000 over derived 1000 x 1000 gives scale 4. -/
theorem C1_exact_multiple_scale_witness :
    ∃ s1 fx, onNewImageLoaded ready (loadOf (4000, 4000) (1000, 1000)) = .ok (s1, fx)
      ∧ s1.foreground = some ⟨(1000, 1000)⟩
      ∧ s1.foregroundScale = ullToFloat 4
      ∧ Effect.changeForegroundImage
          (if ready.likelihoodCheckBox && (loadOf (4000, 4000) (1000, 1000)).likelihoodChecked
            then some ⟨(1000, 1000)⟩ else none) (ullToFloat 4) ∈ fx
      ∧ (4 ≤ 2 ^ 24 → ullToFloat 4 = 4) :=
  C1_exact_multiple_scale ready (loadOf (4000, 4000) (1000, 1000)) ⟨(1000, 1000)⟩
    ⟨(4000, 4000)⟩ 4 1000 1000 (by decide) (by decide) (by decide) (by decide) (by decide)
    (by decide) rfl rfl rfl rfl rfl (Or.inl rfl)

/-- C1, counterexample: with base 16777217 x 16777217 over derived 1 x 1
(`k = 16777217 = 2 ^ 24 + 1`, `w = h = 1`) the check passes, and the scale
factor stored and emitted is 16777216, not `k`. -/
theorem C1_counterexample :
    onNewImageLoaded ready (loadOf (16777217 * 1, 16777217 * 1) (1, 1))
      = .ok ({ ready with foreground := some ⟨(1, 1)⟩, foregroundScale := 16777216 },
             [Effect.dockSetEnabled true,
              Effect.changeForegroundImage (some ⟨(1, 1)⟩) 16777216,
              Effect.setForegroundOpacity 1])
      ∧ (16777216 : Nat) ≠ 16777217 :=
  ⟨rfl, by decide⟩

/-- C2: for strictly positive dimensions whose floor quotients differ along
the two axes, a load returns, leaves the scale factor at the value it had
before the check (1 after the release of a previous derived image, the stored
value otherwise) and emits no `changeForegroundImage` that carries an image. -/
theorem C2_axis_mismatch_rejected [Mul F] (s : VisualizationWorkstationExtensionPlugin F D)
    (e : NewImage F) (fg bg : MultiResolutionImage)
    (_hbw : 0 < bg.getDimensions.1) (_hbh : 0 < bg.getDimensions.2)
    (hfw : 0 < fg.getDimensions.1) (hfh : 0 < fg.getDimensions.2)
    (hmis : bg.getDimensions.1 / fg.getDimensions.1 ≠ bg.getDimensions.2 / fg.getDimensions.2)
    (hname : e.fileName ≠ "") (hex : e.likelihoodMapExists = true)
    (hopen : e.opened = some fg) (himg : e.img = some bg)
    (hsafe : detectionsSafe s e) :
    ∃ s1 fx, onNewImageLoaded s e = .ok (s1, fx)
      ∧ s1.foregroundScale = (if s.foreground.isSome then 1 else s.foregroundScale)
      ∧ ∀ img scale, Effect.changeForegroundImage img scale ∈ fx → img = none := by
  have hreg : registration bg.getDimensions fg.getDimensions = .ok none := by
    rw [registration_of_pos _ _ hfw hfh, if_neg hmis]
  obtain ⟨l1, added, h1⟩ :=
    onNewImageLoaded_rejected s e fg bg hname hex hopen himg hreg hsafe
  refine ⟨_, _, h1, rfl, ?_⟩
  intro img scale hmem
  simp only [List.mem_append, List.mem_map] at hmem
  rcases hmem with (hmem | hmem) | ⟨it, _, hit⟩
  · by_cases hd : s.dockWidget = true
    · simp [hd] at hmem
    · simp [hd] at hmem
  · by_cases hf : s.foreground.isSome = true
    · simp [hf] at hmem
      exact hmem.1
    · simp [hf] at hmem
  · cases hit

/-- C2, witness: base 10 x 10 over derived 3 x 2 (quotients 3 and 5). -/
theorem C2_axis_mismatch_rejected_witness :
    ∃ s1 fx, onNewImageLoaded ready (loadOf (10, 10) (3, 2)) = .ok (s1, fx)
      ∧ s1.foregroundScale = (if ready.foreground.isSome then 1 else ready.foregroundScale)
      ∧ ∀ img scale, Effect.changeForegroundImage img scale ∈ fx → img = none :=
  C2_axis_mismatch_rejected ready (loadOf (10, 10) (3, 2)) ⟨(3, 2)⟩ ⟨(10, 10)⟩
    (by decide) (by decide) (by decide) (by decide) (by decide) (by decide) rfl rfl rfl
    (Or.inl rfl)

/-- C3, as amended: when a load accepts a pair with strictly positive derived
dimensions and sets the scale factor to `sc`, then `sc` is the `float` value of
the floor quotient `q` common to both axes, with
`q * derivedWidth ≤ baseWidth < (q + 1) * derivedWidth` and the same along the
height; for `q ≤ 2 ^ 24` the scale is `q` itself and the equalities
`baseWidth = sc * derivedWidth`, `baseHeight = sc * derivedHeight` hold exactly
when the derived dimensions divide the base dimensions. -/
theorem C3_scale_is_common_floor_quotient [Mul F]
    (s : VisualizationWorkstationExtensionPlugin F D)
    (e : NewImage F) (fg bg : MultiResolutionImage) (sc : Nat)
    (hfw : 0 < fg.getDimensions.1) (hfh : 0 < fg.getDimensions.2)
    (hname : e.fileName ≠ "") (hex : e.likelihoodMapExists = true)
    (hopen : e.opened = some fg) (himg : e.img = some bg)
    (hacc : registration bg.getDimensions fg.getDimensions = .ok (some sc))
    (hsafe : detectionsSafe s e) :
    ∃ s1 fx q, onNewImageLoaded s e = .ok (s1, fx)
      ∧ s1.foregroundScale = sc
      ∧ sc = ullToFloat q
      ∧ q = bg.getDimensions.1 / fg.getDimensions.1
      ∧ q = bg.getDimensions.2 / fg.getDimensions.2
      ∧ q * fg.getDimensions.1 ≤ bg.getDimensions.1
      ∧ bg.getDimensions.1 < (q + 1) * fg.getDimensions.1
      ∧ q * fg.getDimensions.2 ≤ bg.getDimensions.2
      ∧ bg.getDimensions.2 < (q + 1) * fg.getDimensions.2
      ∧ (q ≤ 2 ^ 24 → sc = q
          ∧ ((bg.getDimensions.1 = sc * fg.getDimensions.1
                ∧ bg.getDimensions.2 = sc * fg.getDimensions.2)
              ↔ (fg.getDimensions.1 ∣ bg.getDimensions.1
                ∧ fg.getDimensions.2 ∣ bg.getDimensions.2))) := by
  obtain ⟨l1, added, h1⟩ :=
    onNewImageLoaded_accepted s e fg bg sc hname hex hopen himg hacc hsafe
  rw [registration_of_pos _ _ hfw hfh] at hacc
  by_cases hq : bg.getDimensions.1 / fg.getDimensions.1 = bg.getDimensions.2 / fg.getDimensions.2
  · rw [if_pos hq] at hacc
    injection hacc with hacc
    injection hacc with hacc
    refine ⟨_, _, bg.getDimensions.1 / fg.getDimensions.1, h1, rfl, hacc.symm, rfl, hq,
      Nat.div_mul_le_self _ _, ?_, ?_, ?_, ?_⟩
    · exact Nat.lt_mul_of_div_lt (Nat.lt_succ_self _) hfw
    · rw [hq]; exact Nat.div_mul_le_self _ _
    · rw [hq]; exact Nat.lt_mul_of_div_lt (Nat.lt_succ_self _) hfh
    · intro h24
      have hsc : sc = bg.getDimensions.1 / fg.getDimensions.1 := by
        rw [← hacc, ullToFloat_of_le _ h24]
      refine ⟨hsc, ?_⟩
      constructor
      · rintro ⟨hw, hh⟩
        exact ⟨Dvd.intro_left _ hw.symm, Dvd.intro_left _ hh.symm⟩
      · rintro ⟨hw, hh⟩
        refine ⟨?_, ?_⟩
        · rw [hsc]; exact (Nat.div_mul_cancel hw).symm
        · rw [hsc, hq]; exact (Nat.div_mul_cancel hh).symm
  · rw [if_neg hq] at hacc
    injection hacc with hacc
    cases hacc

/-- C3, witness: base 10 x 10 over derived 3 x 3 is accepted with scale 3, and
`3 * 3 ≤ 10 < 4 * 3`. -/
theorem C3_scale_is_common_floor_quotient_witness :
    ∃ s1 fx q, onNewImageLoaded ready (loadOf (10, 10) (3, 3)) = .ok (s1, fx)
      ∧ s1.foregroundScale = 3
      ∧ 3 = ullToFloat q
      ∧ q = 10 / 3
      ∧ q = 10 / 3
      ∧ q * 3 ≤ 10
      ∧ 10 < (q + 1) * 3
      ∧ q * 3 ≤ 10
      ∧ 10 < (q + 1) * 3
      ∧ (q ≤ 2 ^ 24 → 3 = q ∧ ((10 = 3 * 3 ∧ 10 = 3 * 3) ↔ (3 ∣ 10 ∧ 3 ∣ 10))) :=
  C3_scale_is_common_floor_quotient ready (loadOf (10, 10) (3, 3)) ⟨(3, 3)⟩ ⟨(10, 10)⟩ 3
    (by decide) (by decide) (by decide) rfl rfl rfl rfl (Or.inl rfl)

/-- C3, counterexample: base 10 x 10 over derived 3 x 3 is accepted and the
scale factor is set to 3, although `10 ≠ 3 * 3`. -/
theorem C3_counterexample :
    onNewImageLoaded ready (loadOf (10, 10) (3, 3))
      = .ok ({ ready with foreground := some ⟨(3, 3)⟩, foregroundScale := 3 },
             [Effect.dockSetEnabled true,
              Effect.changeForegroundImage (some ⟨(3, 3)⟩) 3,
              Effect.setForegroundOpacity 1])
      ∧ (10 : Nat) ≠ 3 * 3 :=
  ⟨rfl, by decide⟩

/-- C5, as amended: for a pair whose derived dimensions are strictly positive
and whose base has a zero component, a load returns (no division has a zero
divisor) and keeps the derived image; when both base components are below the
derived ones (both quotients are 0) the pair is accepted with scale factor 0,
otherwise it is rejected: the scale factor keeps the value it had before the
check and no `changeForegroundImage` carries an image. -/
theorem C5_zero_base_dimension [Mul F] (s : VisualizationWorkstationExtensionPlugin F D)
    (e : NewImage F) (fg bg : MultiResolutionImage)
    (hfw : 0 < fg.getDimensions.1) (hfh : 0 < fg.getDimensions.2)
    (hz : bg.getDimensions.1 = 0 ∨ bg.getDimensions.2 = 0)
    (hname : e.fileName ≠ "") (hex : e.likelihoodMapExists = true)
    (hopen : e.opened = some fg) (himg : e.img = some bg)
    (hsafe : detectionsSafe s e) :
    ∃ s1 fx, onNewImageLoaded s e = .ok (s1, fx)
      ∧ s1.foreground = some fg
      ∧ ((bg.getDimensions.1 < fg.getDimensions.1 ∧ bg.getDimensions.2 < fg.getDimensions.2) →
          s1.foregroundScale = 0
          ∧ Effect.changeForegroundImage
              (if s.likelihoodCheckBox && e.likelihoodChecked then some fg else none) 0 ∈ fx)
      ∧ (¬ (bg.getDimensions.1 < fg.getDimensions.1 ∧ bg.getDimensions.2 < fg.getDimensions.2) →
          s1.foregroundScale = (if s.foreground.isSome then 1 else s.foregroundScale)
          ∧ ∀ img scale, Effect.changeForegroundImage img scale ∈ fx → img = none) := by
  by_cases hlt : bg.getDimensions.1 < fg.getDimensions.1 ∧ bg.getDimensions.2 < fg.getDimensions.2
  · have hreg : registration bg.getDimensions fg.getDimensions = .ok (some 0) := by
      rw [registration_of_pos _ _ hfw hfh, Nat.div_eq_of_lt hlt.1, Nat.div_eq_of_lt hlt.2]
      rfl
    obtain ⟨l1, added, h1⟩ :=
      onNewImageLoaded_accepted s e fg bg 0 hname hex hopen himg hreg hsafe
    refine ⟨_, _, h1, rfl, fun _ => ⟨rfl, ?_⟩, fun hn => absurd hlt hn⟩
    by_cases hc : (s.likelihoodCheckBox && e.likelihoodChecked) = true
    · simp [hc]
    · simp [hc]
  · have hmis : bg.getDimensions.1 / fg.getDimensions.1
        ≠ bg.getDimensions.2 / fg.getDimensions.2 := by
      intro heq
      apply hlt
      rcases hz with h0 | h0
      · rw [h0, Nat.zero_div] at heq
        exact ⟨by rw [h0]; exact hfw, (Nat.div_eq_zero_iff hfh).mp heq.symm⟩
      · rw [h0, Nat.zero_div] at heq
        exact ⟨(Nat.div_eq_zero_iff hfw).mp heq, by rw [h0]; exact hfh⟩
    have hreg : registration bg.getDimensions fg.getDimensions = .ok none := by
      rw [registration_of_pos _ _ hfw hfh, if_neg hmis]
    obtain ⟨l1, added, h1⟩ :=
      onNewImageLoaded_rejected s e fg bg hname hex hopen himg hreg hsafe
    refine ⟨_, _, h1, rfl, fun h => absurd h hlt, fun _ => ⟨rfl, ?_⟩⟩
    intro img scale hmem
    simp only [List.mem_append, List.mem_map] at hmem
    rcases hmem with (hmem | hmem) | ⟨it, _, hit⟩
    · by_cases hd : s.dockWidget = true
      · simp [hd] at hmem
      · simp [hd] at hmem
    · by_cases hf : s.foreground.isSome = true
      · simp [hf] at hmem
        exact hmem.1
      · simp [hf] at hmem
    · cases hit

/-- C5, witness: base 0 x 7 over derived 2 x 2 (quotients 0 and 3) is rejected. -/
theorem C5_zero_base_dimension_witness :
    ∃ s1 fx, onNewImageLoaded ready (loadOf (0, 7) (2, 2)) = .ok (s1, fx)
      ∧ s1.foreground = some ⟨(2, 2)⟩
      ∧ (((0 : Nat) < 2 ∧ (7 : Nat) < 2) →
          s1.foregroundScale = 0
          ∧ Effect.changeForegroundImage
              (if ready.likelihoodCheckBox && (loadOf (0, 7) (2, 2)).likelihoodChecked
                then some ⟨(2, 2)⟩ else none) 0 ∈ fx)
      ∧ (¬ ((0 : Nat) < 2 ∧ (7 : Nat) < 2) →
          s1.foregroundScale = (if ready.foreground.isSome then 1 else ready.foregroundScale)
          ∧ ∀ img scale, Effect.changeForegroundImage img scale ∈ fx → img = none) :=
  C5_zero_base_dimension ready (loadOf (0, 7) (2, 2)) ⟨(2, 2)⟩ ⟨(0, 7)⟩
    (by decide) (by decide) (Or.inl rfl) (by decide) rfl rfl rfl (Or.inl rfl)

/-- C5, counterexample: a base of 0 x 0 over a derived 1 x 1 is accepted with
scale factor 0 and the derived image is emitted; and with a derived image of
0 x 1 the division of line 80 is evaluated with a zero divisor. -/
theorem C5_counterexample :
    onNewImageLoaded ready (loadOf (0, 0) (1, 1))
      = .ok ({ ready with foreground := some ⟨(1, 1)⟩, foregroundScale := 0 },
             [Effect.dockSetEnabled true,
              Effect.changeForegroundImage (some ⟨(1, 1)⟩) 0,
              Effect.setForegroundOpacity 1])
      ∧ onNewImageLoaded ready (loadOf (4, 4) (0, 1)) = .error Fault.divisionByZero :=
  ⟨rfl, rfl⟩

/-! ## Overlay life cycle -/

/-- C4, evaluation at the failing input: a load with the likelihood box
unchecked whose derived image (3 x 2 under a 10 x 10 base) opens and fails the
check keeps that image in `_foreground`, and the following
`onEnableLikelihoodToggled(true)` emits it with scale 1. -/
theorem C4_rejected_image_is_emitted_on_toggle :
    run ready [Event.imageLoaded (loadUnchecked (10, 10) (3, 2)), Event.toggleRaster true]
      = .ok ({ ready with foreground := some ⟨(3, 2)⟩ },
             [Effect.dockSetEnabled true,
              Effect.changeForegroundImage (some ⟨(3, 2)⟩) 1]) :=
  rfl

/-- C6: in every state the user interface can deliver with the segmentation
box unchecked (the states in which `toggled(true)` can be emitted) no polygon
handle is attached; `onEnableSegmentationToggled(true)` returns when the viewer
is set, and whenever it returns the list is unchanged and `_polygons` holds
exactly one handle per annotation of the list, in list order, each added to
the scene: the number of attached handles equals the number of annotations,
and no handle from before the event is among them. -/
theorem C6_enable_attaches_one_handle_per_annotation [Mul F] [One D]
    (s : VisualizationWorkstationExtensionPlugin F D) (scl : F)
    (h : Delivered s false) :
    s.polygons = []
      ∧ (s.viewer = true →
          ∃ s1 fx, onEnableSegmentationToggled s true scl = .ok (s1, fx))
      ∧ ∀ (s1 : VisualizationWorkstationExtensionPlugin F D) (fx : List (Effect F D)),
          onEnableSegmentationToggled s true scl = .ok (s1, fx) →
          ∃ anns : List ( Annotation F), s.lst = some anns ∧ s1.lst = some anns
            ∧ s1.polygons = anns.map (fun it => ⟨polygonOf scl it.getCoordinates⟩)
            ∧ s1.polygons.length = anns.length
            ∧ fx = s1.polygons.map Effect.sceneAddItem := by
  obtain ⟨hempty, hlst⟩ := delivered_unchecked h
  have hp : s.polygons = [] := hempty rfl
  refine ⟨hp, ?_, ?_⟩
  · intro hv
    simp only [onEnableSegmentationToggled, Bool.true_eq_false, if_false]
    exact addSegmentationsToViewer_total s scl hv
  · intro s1 fx hstep
    simp only [onEnableSegmentationToggled, Bool.true_eq_false, if_false] at hstep
    obtain ⟨anns, hanns⟩ : ∃ anns, s.lst = some anns := Option.isSome_iff_exists.mp hlst
    obtain ⟨added, e1, e2, _, e3⟩ := addSegmentationsToViewer_ok hstep
    rw [hanns] at e3
    simp only [Option.getD_some] at e3
    subst e1
    refine ⟨anns, hanns, hanns, ?_, ?_, ?_⟩
    · simp [hp, e3]
    · simp [hp, e3]
    · simp [hp, e2]

/-- C6, witness: after a load that read the box unchecked and filled the list
with one triangle, enabling attaches exactly one handle. -/
theorem C6_enable_attaches_one_handle_per_annotation_witness :
    ({ ready with lst := some [triangle] } :
        VisualizationWorkstationExtensionPlugin Int ℚ).polygons = []
      ∧ (({ ready with lst := some [triangle] } :
            VisualizationWorkstationExtensionPlugin Int ℚ).viewer = true →
          ∃ s1 fx, onEnableSegmentationToggled
            ({ ready with lst := some [triangle] } :
              VisualizationWorkstationExtensionPlugin Int ℚ) true 2 = .ok (s1, fx))
      ∧ ∀ (s1 : VisualizationWorkstationExtensionPlugin Int ℚ) (fx : List (Effect Int ℚ)),
          onEnableSegmentationToggled
            ({ ready with lst := some [triangle] } :
              VisualizationWorkstationExtensionPlugin Int ℚ) true 2 = .ok (s1, fx) →
          ∃ anns : List ( Annotation Int),
            ({ ready with lst := some [triangle] } :
              VisualizationWorkstationExtensionPlugin Int ℚ).lst = some anns
            ∧ s1.lst = some anns
            ∧ s1.polygons = anns.map (fun it => ⟨polygonOf 2 it.getCoordinates⟩)
            ∧ s1.polygons.length = anns.length
            ∧ fx = s1.polygons.map Effect.sceneAddItem :=
  C6_enable_attaches_one_handle_per_annotation _ 2
    (Delivered.imageLoaded loadBoxUnchecked (Delivered.start true true true true false)
      rfl rfl)

/-- Outside the delivered sequences: when the slot is called with `true` a
second time without a change of the box in between,
`addSegmentationsToViewer` appends to the handles already attached. -/
theorem repeated_enable_appends :
    run ready [Event.imageLoaded loadWithDetections, Event.togglePolygons true 2]
      = .ok ({ ready with
                 lst := some [triangle]
                 polygons := [⟨[⟨0, 0⟩, ⟨8, 0⟩, ⟨0, 6⟩]⟩, ⟨[⟨0, 0⟩, ⟨8, 0⟩, ⟨0, 6⟩]⟩] },
             [Effect.dockSetEnabled true,
              Effect.sceneAddItem ⟨[⟨0, 0⟩, ⟨8, 0⟩, ⟨0, 6⟩]⟩,
              Effect.sceneAddItem ⟨[⟨0, 0⟩, ⟨8, 0⟩, ⟨0, 6⟩]⟩]) :=
  rfl

/-- C7: in every reachable state `onImageClosed` returns; on the way it
removes every attached polygon handle from the scene and deletes it, emits
`changeForegroundImage` with the empty pointer and scale 1 when a derived
image was held, and makes no other call but disabling the dock widget;
afterwards no polygon handle is attached, no derived image is held and the
scale factor is 1. -/
theorem C7_closed_is_empty [Mul F] [One D] (s : VisualizationWorkstationExtensionPlugin F D)
    (h : Reachable s) :
    ∃ s1 fx, onImageClosed s = .ok (s1, fx)
      ∧ s1.polygons = [] ∧ s1.polygons.length = 0
      ∧ s1.foreground = none ∧ s1.foregroundScale = 1
      ∧ fx = releaseCalls s.polygons
             ++ (if s.foreground.isSome then [Effect.changeForegroundImage none 1] else [])
             ++ (if s.dockWidget then [Effect.dockSetEnabled false] else [])
      ∧ (∀ it ∈ s.polygons, Effect.sceneRemoveItem it ∈ fx ∧ Effect.deleteItem it ∈ fx)
      ∧ (s.foreground.isSome = true → Effect.changeForegroundImage none 1 ∈ fx)
      ∧ (∀ it, Effect.sceneAddItem it ∉ fx)
      ∧ (∀ img scale, Effect.changeForegroundImage img scale ∈ fx → img = none) := by
  have hc := reachable_consistent h
  refine ⟨closed s, _, onImageClosed_eq s hc.1, rfl, rfl, rfl, ?_, rfl, ?_, ?_, ?_, ?_⟩
  · show (if s.foreground.isSome then 1 else s.foregroundScale) = 1
    cases hf : s.foreground with
    | none => simpa using hc.2 hf
    | some x => simp
  · intro it hit
    have hm := mem_releaseCalls (D := D) hit
    exact ⟨List.mem_append_left _ (List.mem_append_left _ hm.1),
      List.mem_append_left _ (List.mem_append_left _ hm.2)⟩
  · intro hf
    simp [hf]
  · intro it hmem
    simp only [List.mem_append] at hmem
    rcases hmem with (hmem | hmem) | hmem
    · exact releaseCalls_no_add _ it hmem
    · split at hmem <;> simp at hmem
    · split at hmem <;> simp at hmem
  · intro img scale hmem
    simp only [List.mem_append] at hmem
    rcases hmem with (hmem | hmem) | hmem
    · exact absurd hmem (releaseCalls_no_signal _ img scale)
    · split at hmem
      · simp at hmem
        exact hmem.1
      · simp at hmem
    · split at hmem <;> simp at hmem

/-- C7, witness: closing after a load that registered a 1000 x 1000 map on a
4000 x 4000 base and attached one polygon. -/
theorem C7_closed_is_empty_witness :
    ∃ s1 fx,
      onImageClosed
          ({ ready with
               foreground := some ⟨(1000, 1000)⟩
               foregroundScale := 4
               lst := some [triangle]
               polygons := [⟨[⟨0, 0⟩, ⟨8, 0⟩, ⟨0, 6⟩]⟩] } :
            VisualizationWorkstationExtensionPlugin Int ℚ)
        = .ok (s1, fx)
      ∧ s1.polygons = [] ∧ s1.polygons.length = 0
      ∧ s1.foreground = none ∧ s1.foregroundScale = 1
      ∧ fx = releaseCalls [(⟨[⟨0, 0⟩, ⟨8, 0⟩, ⟨0, 6⟩]⟩ : QGraphicsPolygonItem Int)]
             ++ (if (some (⟨(1000, 1000)⟩ : MultiResolutionImage)).isSome then
                   [Effect.changeForegroundImage none 1] else [])
             ++ (if ready.dockWidget then [Effect.dockSetEnabled false] else [])
      ∧ (∀ it ∈ [(⟨[⟨0, 0⟩, ⟨8, 0⟩, ⟨0, 6⟩]⟩ : QGraphicsPolygonItem Int)],
          Effect.sceneRemoveItem it ∈ fx ∧ Effect.deleteItem it ∈ fx)
      ∧ ((some (⟨(1000, 1000)⟩ : MultiResolutionImage)).isSome = true →
          Effect.changeForegroundImage none 1 ∈ fx)
      ∧ (∀ it, Effect.sceneAddItem it ∉ fx)
      ∧ (∀ img scale, Effect.changeForegroundImage img scale ∈ fx → img = none) :=
  C7_closed_is_empty _
    (Reachable.step
      (Event.imageLoaded
        { loadWithDetections with likelihoodMapExists := true, opened := some ⟨(1000, 1000)⟩ })
      (Reachable.start true true true true) rfl)

/-- C8: on a plugin whose viewer is set, after `onOpacityChanged(v)` (which
forwards `v` to the viewer) every run of load, close and toggle events leaves
the stored opacity equal to `v`, and every load after it whose derived image
opens and passes the check returns and calls `setForegroundOpacity` with `v`
and with no other value. -/
theorem C8_opacity_persists [Mul F] (s s2 : VisualizationWorkstationExtensionPlugin F D)
    (v : D) (es : List (Event F D)) (fx2 : List (Effect F D))
    (hv : s.viewer = true) (hes : ∀ ev ∈ es, ev.keepsOpacity = true)
    (hrun : run s (Event.opacityChanged v :: es) = .ok (s2, fx2)) :
    s2.opacity = v
      ∧ fx2.head? = some (Effect.setForegroundOpacity v)
      ∧ ∀ (e : NewImage F) (fg bg : MultiResolutionImage) (sc : Nat),
          e.fileName ≠ "" → e.likelihoodMapExists = true → e.opened = some fg →
          e.img = some bg →
          registration bg.getDimensions fg.getDimensions = .ok (some sc) →
          ∃ s3 fx3, onNewImageLoaded s2 e = .ok (s3, fx3)
            ∧ s3.opacity = v
            ∧ Effect.setForegroundOpacity v ∈ fx3
            ∧ ∀ o, Effect.setForegroundOpacity o ∈ fx3 → o = v := by
  have hstep : onOpacityChanged s v
      = .ok ({ s with opacity := v }, [Effect.setForegroundOpacity v]) := by
    unfold onOpacityChanged
    rw [if_pos hv]
  simp only [run, step, hstep] at hrun
  cases hr : run { s with opacity := v } es with
  | error f => simp [hr] at hrun
  | ok r =>
    obtain ⟨s3, fx3⟩ := r
    simp only [hr] at hrun
    injection hrun with hrun
    injection hrun with h1 h2
    subst h1
    obtain ⟨hop, hvw⟩ := run_keeps_opacity es hes _ _ _ hr
    have hop2 : s3.opacity = v := hop
    have hv2 : s3.viewer = true := hvw.trans hv
    refine ⟨hop2, by simp [← h2], ?_⟩
    intro e fg bg sc hname hex hopen himg hreg
    obtain ⟨l1, added, h3⟩ :=
      onNewImageLoaded_accepted s3 e fg bg sc hname hex hopen himg hreg (Or.inl hv2)
    refine ⟨_, _, h3, hop2, ?_, ?_⟩
    · simp [hv2, hop2]
    · intro o ho
      simp only [List.mem_append, List.mem_map, hv2, if_true, List.mem_singleton] at ho
      rcases ho with (ho | (ho | ho) | ho) | ⟨it, _, hit⟩
      · split at ho <;> simp at ho
      · split at ho <;> simp at ho
      · split at ho <;> simp at ho
      · injection ho with ho
        rw [ho, hop2]
      · cases hit

/-- C8, witness: `OpacityChanged(1/2)`, `ImageClosed`, then a load of a
1000 x 1000 map on a 4000 x 4000 base with the likelihood box checked: the
load forwards opacity `1/2`. -/
theorem C8_opacity_persists_witness :
    ∃ s3 fx3,
      onNewImageLoaded ({ ready with opacity := 1 / 2 } :
          VisualizationWorkstationExtensionPlugin Int ℚ)
        (loadOf (4000, 4000) (1000, 1000)) = .ok (s3, fx3)
      ∧ s3.opacity = 1 / 2
      ∧ Effect.setForegroundOpacity (1 / 2) ∈ fx3
      ∧ ∀ o, Effect.setForegroundOpacity o ∈ fx3 → o = 1 / 2 :=
  (C8_opacity_persists ready { ready with opacity := 1 / 2 } (1 / 2) [Event.imageClosed]
      [Effect.setForegroundOpacity (1 / 2), Effect.dockSetEnabled false]
      rfl (by decide) rfl).2.2
    (loadOf (4000, 4000) (1000, 1000)) ⟨(1000, 1000)⟩ ⟨(4000, 4000)⟩ 4
    (by decide) rfl rfl rfl rfl

/-- The scenario of C8 in full: the raster is attached at scale 4 and the
opacity `1/2` set before the close is forwarded again by the load. -/
theorem opacity_reload_trace :
    run ready [Event.opacityChanged (1 / 2), Event.imageClosed,
               Event.imageLoaded (loadOf (4000, 4000) (1000, 1000))]
      = .ok ({ ready with
                 opacity := 1 / 2
                 foreground := some ⟨(1000, 1000)⟩
                 foregroundScale := 4 },
             [Effect.setForegroundOpacity (1 / 2),
              Effect.dockSetEnabled false,
              Effect.dockSetEnabled true,
              Effect.changeForegroundImage (some ⟨(1000, 1000)⟩) 4,
              Effect.setForegroundOpacity (1 / 2)]) :=
  rfl

/-- C9: with no polygon handle attached, `onEnableSegmentationToggled(false)`
returns the plugin unchanged (so the handle count stays 0) and makes no call
on the scene; and from any state, delivering `TogglePolygons(false)` twice
ends in the same plugin (or the same fault) as delivering it once. -/
theorem C9_detach_idempotent [Mul F] (s : VisualizationWorkstationExtensionPlugin F D)
    (scl : F) :
    (s.polygons = [] →
        onEnableSegmentationToggled s false scl = .ok (s, []) ∧ s.polygons.length = 0)
      ∧ (run s [Event.togglePolygons false scl, Event.togglePolygons false scl]).map Prod.fst
          = (run s [Event.togglePolygons false scl]).map Prod.fst := by
  have hnil : ∀ t : VisualizationWorkstationExtensionPlugin F D, t.polygons = [] →
      removeSegmentationsFromViewer t = .ok (t, []) := by
    intro t ht
    unfold removeSegmentationsFromViewer
    simp [ht]
  constructor
  · intro hp
    refine ⟨?_, by simp [hp]⟩
    simp only [onEnableSegmentationToggled, if_true]
    exact hnil s hp
  · simp only [run, step, onEnableSegmentationToggled, if_true]
    cases hr : removeSegmentationsFromViewer s with
    | error f => rfl
    | ok r =>
      obtain ⟨s1, fx1⟩ := r
      obtain ⟨e1, _, _⟩ := removeSegmentationsFromViewer_ok hr
      have h2 : removeSegmentationsFromViewer s1 = .ok (s1, []) := hnil s1 (by rw [e1])
      simp only [h2]
      rfl

/-- C9, witness: a freshly set-up plugin has no polygons attached. -/
theorem C9_detach_idempotent_witness :
    (onEnableSegmentationToggled ready false 1 = .ok (ready, []) ∧ ready.polygons.length = 0)
      ∧ (run ready [Event.togglePolygons false 1, Event.togglePolygons false 1]).map Prod.fst
          = (run ready [Event.togglePolygons false 1]).map Prod.fst :=
  ⟨(C9_detach_idempotent ready 1).1 rfl, (C9_detach_idempotent ready 1).2⟩

/-! ## Polygon projection (lines 143-161) -/

/-- C10: with the viewer set and the list holding `anns`,
`addSegmentationsToViewer` returns and appends to `_polygons`, after the
handles already there, one polygon per annotation in list order (each also
added to the scene in that order); the `i`-th appended polygon has as many
points as the `i`-th annotation, and its `j`-th point is `(x * s, y * s)` for
the annotation's `j`-th coordinate `(x, y)` and the scene scale `s`. -/
theorem C10_projection_is_uniform_scale [Mul F]
    (s : VisualizationWorkstationExtensionPlugin F D) (scl : F) (anns : List ( Annotation F))
    (hl : s.lst = some anns) (hv : s.viewer = true) :
    ∃ added : List (QGraphicsPolygonItem F),
      addSegmentationsToViewer s scl
        = .ok ({ s with polygons := s.polygons ++ added }, added.map Effect.sceneAddItem)
      ∧ added.length = anns.length
      ∧ ∀ (i : Nat) (a : Annotation F), anns[i]? = some a →
          ∃ item : QGraphicsPolygonItem F, added[i]? = some item
            ∧ item.polygon.length = a.getCoordinates.length
            ∧ ∀ (j : Nat) (pt : Point F), a.getCoordinates[j]? = some pt →
                item.polygon[j]? = some ⟨pt.getX * scl, pt.getY * scl⟩ := by
  refine ⟨anns.map (fun it => ⟨polygonOf scl it.getCoordinates⟩), ?_, by simp, ?_⟩
  · rw [addSegmentationsToViewer_eq s scl anns hl hv]
    simp [List.map_map, Function.comp_def]
  · intro i a hi
    refine ⟨⟨polygonOf scl a.getCoordinates⟩, by simp [hi], ?_, ?_⟩
    · simp [polygonOf_eq_map]
    · intro j pt hj
      simp [polygonOf_eq_map, hj]

/-- C10, witness: the triangle `(0,0) (4,0) (0,3)` at scene scale 2 becomes
`(0,0) (8,0) (0,6)`. -/
theorem C10_projection_is_uniform_scale_witness :
    ∃ added : List (QGraphicsPolygonItem Int),
      addSegmentationsToViewer
          ({ ready with lst := some [triangle] } : VisualizationWorkstationExtensionPlugin Int ℚ) 2
        = .ok ({ ready with lst := some [triangle], polygons := [] ++ added },
               added.map Effect.sceneAddItem)
      ∧ added.length = [triangle].length
      ∧ ∀ (i : Nat) (a : Annotation Int), [triangle][i]? = some a →
          ∃ item : QGraphicsPolygonItem Int, added[i]? = some item
            ∧ item.polygon.length = a.getCoordinates.length
            ∧ ∀ (j : Nat) (pt : Point Int), a.getCoordinates[j]? = some pt →
                item.polygon[j]? = some ⟨pt.getX * 2, pt.getY * 2⟩ :=
  C10_projection_is_uniform_scale { ready with lst := some [triangle] } 2 [triangle] rfl rfl

end ASAP
